import Mathlib

set_option maxHeartbeats 1000000
set_option linter.unusedVariables false
set_option linter.unnecessarySeqFocus false
set_option linter.unreachableTactic false
set_option linter.unusedTactic false

/-!
Shallow embedding of the ServerStatus-Rust core under verification:

* `src/server/src/notifier/email.rs`  — the Email channel,
* `src/server/src/notifier/wechat.rs` — the WeChat (IM/webhook) channel,
* `src/client/src/sys_info.rs`        — the metric sampler and snapshot assembler.

Conventions of the embedding:

* Rust `u64` values are modelled as `Nat`; the unchecked `u64` subtractions in
  `sample` are modelled by `checkedSub`, which returns `none` exactly when the
  Rust subtraction would underflow (a panic in debug builds).
* Rust panics (`.unwrap()` on `Err`/`None`) are modelled explicitly: channel
  operations return a `CallRes` whose `panicked` constructor marks a panic.
* The opaque collaborators that live outside the three source files
  (the minijinja renderer behind `render_template`, the lettre mailbox parser,
  the network transports inside the spawned tasks) enter as parameters: a
  channel operation receives the render result, the parse predicate and the
  transport outcome as arguments and we prove how the result depends on them.
  The global Tokio runtime handle `NOTIFIER_HANDLE` is modelled as present
  (it is installed at server start, outside the embedded files).
* Each operation also returns the list of message bodies handed to a spawned
  background transport task, so "zero transport calls" is the empty list.
-/

/-- Host lifecycle events (`crate::notifier::Event`), consumed by the channels. -/
inductive Event where
  | NodeUp
  | NodeDown
  | Custom
deriving DecidableEq, Repr

/-- Result of a channel operation. Rust panics (`.unwrap()` on an `Err`) are
modelled explicitly as `panicked`; `err` is an `Err` value returned to the
caller; `ok` is a normal return. -/
inductive CallRes (α : Type) where
  | panicked
  | err (msg : String)
  | ok (val : α)
deriving DecidableEq, Repr

/-- The result of `render_template`: `Except.error` is a minijinja
`RenderError` (missing template, missing context field, bad syntax),
`Except.ok` the rendered text. -/
def RenderRes : Type := Except String String

/-- Fields of the `Config` struct in email.rs.
The source field `to` is spelled `to_addr` here because `to` is a Lean
keyword. -/
structure EmailConfig where
  enabled : Bool
  server : String
  username : String
  password : String
  to_addr : String
  subject : String
  title : String
  online_tpl : String
  offline_tpl : String
  custom_tpl : String
deriving DecidableEq, Repr

/-- Fields of the `Config` struct in wechat.rs. -/
structure WeChatConfig where
  enabled : Bool
  corp_id : String
  corp_secret : String
  agent_id : String
  custom_tpl : String
deriving DecidableEq, Repr

namespace Email

/-- Embeds `Email::new` (email.rs 35-53): stores the config reference and
registers the three templates keyed by event kind via `add_template`, whose
return value email.rs discards (registration cannot fail construction there).
The returned association list is the set of (event-kind, template-source)
registrations performed. `Email::new` performs no validation of any config
field. -/
def new (cfg : EmailConfig) : EmailConfig × List (Event × String) :=
  (cfg, [(Event.NodeUp, cfg.online_tpl),
         (Event.NodeDown, cfg.offline_tpl),
         (Event.Custom, cfg.custom_tpl)])

/-- Embeds `Email::send_msg` (email.rs 55-100). `parse` is the lettre mailbox
parser: `parse s = true` iff `s.parse::<Mailbox>()` succeeds. The builder
parses the from address `format!("ServerStatus <{}>", username)` first, then
`config.to`; each `.parse().unwrap()` panics when parsing fails. After the
builder succeeds the function spawns the SMTP task and returns `Ok(())`;
`transportOk` is the outcome of `mailer.send(email).await` inside the spawned
closure, which only logs on either branch, so the returned value never
depends on it. The second component lists the bodies handed to spawned
transport tasks. -/
def send_msg (parse : String → Bool) (transportOk : Bool) (cfg : EmailConfig)
    (html_content : String) : CallRes Unit × List String :=
  if parse ("ServerStatus <" ++ cfg.username ++ ">") then
    if parse cfg.to_addr then
      (CallRes.ok (), [html_content])
    else
      (CallRes.panicked, [])
  else
    (CallRes.panicked, [])

/-- Embeds `Email::notify_test` (email.rs 108-110). -/
def notify_test (parse : String → Bool) (transportOk : Bool)
    (cfg : EmailConfig) : CallRes Unit × List String :=
  send_msg parse transportOk cfg "❗ServerStatus test msg"

/-- Embeds `Email::notify` (email.rs 112-136). `render` is the result of
`render_template` for this event and host stat.
* NodeUp/NodeDown: `render_template(..).map(|content| self.send_msg(content)).unwrap()`
  — on a render error the `.map` leaves the `Err` and the outer `.unwrap()`
  panics; on success the inner `send_msg` result is returned.
* Custom: `render_template(..).map(|content| ...)` — on a render error the
  `Err` itself is returned to the caller; on success the closure logs, skips
  delivery when the content is empty, otherwise sends
  `format!("{}\n{}", title, content)` with a send error swallowed by
  `unwrap_or_else` (a panic inside `send_msg` still propagates), and the
  overall value is `Ok(())`. -/
def notify (parse : String → Bool) (transportOk : Bool) (cfg : EmailConfig)
    (e : Event) (render : RenderRes) : CallRes Unit × List String :=
  match e with
  | Event.NodeUp =>
    match render with
    | Except.error _ => (CallRes.panicked, [])
    | Except.ok content => send_msg parse transportOk cfg content
  | Event.NodeDown =>
    match render with
    | Except.error _ => (CallRes.panicked, [])
    | Except.ok content => send_msg parse transportOk cfg content
  | Event.Custom =>
    match render with
    | Except.error msg => (CallRes.err msg, [])
    | Except.ok content =>
      if content.isEmpty then
        (CallRes.ok (), [])
      else
        match send_msg parse transportOk cfg (cfg.title ++ "\n" ++ content) with
        | (CallRes.panicked, calls) => (CallRes.panicked, calls)
        | (_, calls) => (CallRes.ok (), calls)

end Email

namespace WeChat

/-- Embeds `WeChat::new` (wechat.rs 36-44): stores the config, builds the
HTTP client and registers the custom template;
`notifier::add_template(KIND, ..).unwrap()` makes a registration failure a
panic at construction. `regOk` is whether `add_template` succeeded. -/
def new (regOk : Bool) (cfg : WeChatConfig) : CallRes WeChatConfig :=
  if regOk then CallRes.ok cfg else CallRes.panicked

/-- Embeds `WeChat::send_msg` (wechat.rs 60-122): builds the token request,
spawns the two-step HTTP exchange on the runtime handle and returns `Ok(())`.
`transportOk` is the outcome of the HTTP calls inside the spawned closure;
every branch of the closure only logs, so the returned value never depends
on it. The second component lists the bodies handed to spawned transport
tasks. -/
def send_msg (transportOk : Bool) (cfg : WeChatConfig)
    (text_content : String) : CallRes Unit × List String :=
  (CallRes.ok (), [text_content])

/-- Embeds `WeChat::custom_notify` (wechat.rs 46-58): on a render error the
`Err` is returned; on success the closure skips delivery when the content is
empty, otherwise sends `format!("❗Server Status\n{}", content)` with a send
error swallowed by `unwrap_or_else`, and the overall value is `Ok(())`. -/
def custom_notify (transportOk : Bool) (cfg : WeChatConfig)
    (render : RenderRes) : CallRes Unit × List String :=
  match render with
  | Except.error msg => (CallRes.err msg, [])
  | Except.ok content =>
    if content.isEmpty then
      (CallRes.ok (), [])
    else
      (CallRes.ok (), (send_msg transportOk cfg ("❗Server Status\n" ++ content)).2)

/-- Embeds `WeChat::notify` (wechat.rs 129-146). `stat_name` is `stat.name`.
NodeUp/NodeDown send fixed text and discard the `send_msg` result with
`let _ =`; Custom discards the `custom_notify` result; every arm falls
through to the final `Ok(())`. -/
def notify (transportOk : Bool) (cfg : WeChatConfig) (e : Event)
    (stat_name : String) (render : RenderRes) : CallRes Unit × List String :=
  match e with
  | Event.NodeUp =>
    (CallRes.ok (),
      (send_msg transportOk cfg ("❗Server Status\n❗ " ++ stat_name ++ " 主机上线 🟢")).2)
  | Event.NodeDown =>
    (CallRes.ok (),
      (send_msg transportOk cfg ("❗Server Status\n❗ " ++ stat_name ++ " 主机下线 🔴")).2)
  | Event.Custom =>
    (CallRes.ok (), (custom_notify transportOk cfg render).2)

end WeChat

/-! ## Client sampler (src/client/src/sys_info.rs) -/

/-- Substring test: `strContains hay needle` embeds
Rust `hay.contains(needle)` (substring containment on the character
sequences). -/
def strContains (hay needle : String) : Bool :=
  (hay.toList.tails).any (fun t => needle.toList.isPrefixOf t)

/-- The interface-name ignore list `IFACE_IGNORE_VEC` (sys_info.rs 16). -/
def IFACE_IGNORE_VEC : List String :=
  ["lo", "docker", "vnet", "veth", "vmbr", "kube", "br-"]

/-- The interface filter used by both network loops (sys_info.rs 70, 142):
`IFACE_IGNORE_VEC.iter().any(|sk| name.contains(*sk))`. -/
def iface_ignored (name : String) : Bool :=
  IFACE_IGNORE_VEC.any (fun sk => strContains name sk)

/-- The allow-list `G_EXPECT_FS` (sys_info.rs 19-37) of recognized real
filesystem types. -/
def G_EXPECT_FS : List String :=
  ["apfs", "ext4", "ext3", "ext2", "f2fs", "reiserfs", "jfs", "btrfs",
   "fuseblk", "zfs", "simfs", "ntfs", "fat32", "exfat", "xfs", "fuse.rclone"]

/-- ASCII lowercasing of one character: how `str::to_lowercase` acts on
the (ASCII) filesystem-name characters involved here. -/
def toLowerChar (c : Char) : Char :=
  if 65 ≤ c.toNat ∧ c.toNat ≤ 90 then Char.ofNat (c.toNat + 32) else c

/-- Lowercasing of a filesystem name (`String::to_lowercase` on its ASCII
content). -/
def strLower (s : String) : String := ⟨s.data.map toLowerChar⟩

/-- The disk filter of `sample` (sys_info.rs 122-123): the lowercased
filesystem name is kept when it contains some allow-list entry. -/
def fsAccepted (file_system : String) : Bool :=
  G_EXPECT_FS.any (fun k => strContains (strLower file_system) k)

/-- One entry of `sys.networks()`: interface name plus the two byte counters
read from it (`received`/`transmitted` in the speed loop,
`total_received`/`total_transmitted` in the rescan — either way a pair of
u64 counters). -/
structure Iface where
  name : String
  rx : Nat
  tx : Nat
deriving DecidableEq, Repr

/-- One entry of `sys.disks()`: filesystem name (after
`String::from_utf8_lossy`), `total_space`, `available_space` (bytes). -/
structure Disk where
  file_system : String
  total_space : Nat
  available_space : Nat
deriving DecidableEq, Repr

/-- The one-shot OS facts `sample` queries from sysinfo. The f64 load
averages (and CPU%) are outside the embedding: `sample` copies them verbatim
and no claim concerns them. -/
structure OsFacts where
  uptime : Nat
  total_memory : Nat
  used_memory : Nat
  total_swap : Nat
  free_swap : Nat
  disks : List Disk
  ifaces : List Iface
deriving DecidableEq, Repr

/-- The fields of `StatRequest` written by `sample` (u64 fields as `Nat`;
the f64 fields `load_1/5/15` and `cpu` are outside the embedding). -/
structure StatRequest where
  version : String
  vnstat : Bool
  uptime : Nat
  memory_total : Nat
  memory_used : Nat
  swap_total : Nat
  swap_used : Nat
  hdd_total : Nat
  hdd_used : Nat
  network_in : Nat
  network_out : Nat
  last_network_in : Nat
  last_network_out : Nat
  network_rx : Nat
  network_tx : Nat
deriving DecidableEq, Repr

/-- The KB→KiB conversion applied to the four memory/swap readings
(sys_info.rs 108-113): `x * 1000 / 1024` in u64 arithmetic. -/
def memConv (x : Nat) : Nat := x * 1000 / 1024

/-- Rust unchecked `u64` subtraction `a - b`, which panics on underflow (in
debug builds): `none` marks the underflow. -/
def checkedSub (a b : Nat) : Option Nat :=
  if b ≤ a then some (a - b) else none

/-- The aggregation loop shared by the net-speed sampler (sys_info.rs 68-75)
and the live rescan in `sample` (sys_info.rs 140-147): fold over the
interfaces, skipping those whose name matches the ignore list, summing the
two counters. -/
def aggregateNet (ifaces : List Iface) : Nat × Nat :=
  ifaces.foldl
    (fun acc i => if iface_ignored i.name then acc else (acc.1 + i.rx, acc.2 + i.tx))
    (0, 0)

/-- One refresh cycle of the loop body in `start_net_speed_collect_t`
(sys_info.rs 67-83): the pair published into `G_NET_SPEED`. -/
def netSpeedCycle (ifaces : List Iface) : Nat × Nat :=
  aggregateNet ifaces

/-- The disk summation loop of `sample` (sys_info.rs 120-127): byte totals
of total and available space over the accepted disks. -/
def diskTotals (disks : List Disk) : Nat × Nat :=
  disks.foldl
    (fun acc d =>
      if fsAccepted d.file_system then
        (acc.1 + d.total_space, acc.2 + d.available_space)
      else acc)
    (0, 0)

/-- Embeds `sample` (sys_info.rs 86-159). Inputs: the package version
string, `args.vnstat`, the one-shot OS facts, the four counters
`(network_in, network_out, m_network_in, m_network_out)` returned by
`get_vnstat_traffic`, the `(net_rx, net_tx)` pair read from `G_NET_SPEED`,
and the incoming `&mut StatRequest` (fields `sample` does not write keep
their incoming values — in the non-vnstat branch this is the case for
`last_network_in`/`last_network_out`). Returns `none` when one of the
unchecked u64 subtractions underflows (a panic in debug builds), in source
order: swap, disk, then the vnstat deltas. -/
def sample (pkgVersion : String) (vnstatFlag : Bool) (os : OsFacts)
    (vn : Nat × Nat × Nat × Nat) (netSpeed : Nat × Nat)
    (stat : StatRequest) : Option StatRequest :=
  let memory_total := memConv os.total_memory
  let memory_used := memConv os.used_memory
  let swap_total := memConv os.total_swap
  let swap_free := memConv os.free_swap
  match checkedSub swap_total swap_free with
  | none => none
  | some swap_used =>
    let hdd := diskTotals os.disks
    match checkedSub hdd.1 hdd.2 with
    | none => none
    | some hdd_used_bytes =>
      if vnstatFlag then
        match checkedSub vn.1 vn.2.2.1, checkedSub vn.2.1 vn.2.2.2 with
        | some lin, some lout =>
          some
            { version := pkgVersion, vnstat := true, uptime := os.uptime,
              memory_total := memory_total, memory_used := memory_used,
              swap_total := swap_total, swap_used := swap_used,
              hdd_total := hdd.1 / 1024 / 1024,
              hdd_used := hdd_used_bytes / 1024 / 1024,
              network_in := vn.1, network_out := vn.2.1,
              last_network_in := lin, last_network_out := lout,
              network_rx := netSpeed.1, network_tx := netSpeed.2 }
        | _, _ => none
      else
        let net := aggregateNet os.ifaces
        some
          { version := pkgVersion, vnstat := false, uptime := os.uptime,
            memory_total := memory_total, memory_used := memory_used,
            swap_total := swap_total, swap_used := swap_used,
            hdd_total := hdd.1 / 1024 / 1024,
            hdd_used := hdd_used_bytes / 1024 / 1024,
            network_in := net.1, network_out := net.2,
            last_network_in := stat.last_network_in,
            last_network_out := stat.last_network_out,
            network_rx := netSpeed.1, network_tx := netSpeed.2 }

/-!
## Lock-discipline interleaving model for `G_NET_SPEED`

`G_NET_SPEED` is an `Arc<Mutex<NetSpeed>>` with one writer — the loop of
`start_net_speed_collect_t`, which under one `lock()` assigns `t.net_rx`
then `t.net_tx` (sys_info.rs 76-79) — and arbitrarily many readers: the
tail of `sample`, which under one `lock()` reads `o.net_rx` then `o.net_tx`
(sys_info.rs 155-158). We model the mutex-protected cell operationally:
each field access is its own step, and every access (including the two
separate field writes) requires holding the lock, exactly as the `MutexGuard`
scopes in the source dictate. Thread `0` is the writer; thread `i + 1` is
the i-th reader.
-/

/-- One primitive operation on the mutex-protected `NetSpeed` cell. -/
inductive LockOp where
  | lock
  | unlock
  | setRx (v : Nat)
  | setTx (v : Nat)
  | readRx
  | readTx
deriving DecidableEq, Repr

/-- The shared cell: the two `NetSpeed` fields plus the mutex owner
(a thread id, or `none` when the mutex is free). -/
structure Cell where
  rx : Nat
  tx : Nat
  owner : Option Nat
deriving DecidableEq, Repr

/-- Small-step semantics of one operation by thread `t`: `none` when the
operation cannot fire (the mutex is held by another thread). A read also
returns the value read. -/
def execOp (t : Nat) (s : Cell) : LockOp → Option (Cell × Option Nat)
  | LockOp.lock =>
    if s.owner = none then some ({ s with owner := some t }, none) else none
  | LockOp.unlock =>
    if s.owner = some t then some ({ s with owner := none }, none) else none
  | LockOp.setRx v =>
    if s.owner = some t then some ({ s with rx := v }, none) else none
  | LockOp.setTx v =>
    if s.owner = some t then some ({ s with tx := v }, none) else none
  | LockOp.readRx =>
    if s.owner = some t then some (s, some s.rx) else none
  | LockOp.readTx =>
    if s.owner = some t then some (s, some s.tx) else none

/-- The writer's critical sections: for each refresh cycle with aggregated
pair `(a, b)`, the loop body locks, assigns `net_rx := a`, assigns
`net_tx := b`, and releases the guard (sys_info.rs 76-79). -/
def writerProg : List (Nat × Nat) → List LockOp
  | [] => []
  | (a, b) :: rest =>
    LockOp.lock :: LockOp.setRx a :: LockOp.setTx b :: LockOp.unlock ::
      writerProg rest

/-- A reader's critical section: `sample` locks, reads `net_rx`, reads
`net_tx`, and releases the guard (sys_info.rs 155-158). -/
def readerProg : List LockOp :=
  [LockOp.lock, LockOp.readRx, LockOp.readTx, LockOp.unlock]

/-- A reader thread: its remaining program and the values it has observed. -/
structure RThread where
  rem : List LockOp
  obs : List Nat
deriving DecidableEq, Repr

/-- A system configuration: the shared cell, the writer's remaining program,
and the reader threads. -/
structure NetSys where
  cell : Cell
  wrem : List LockOp
  readers : List RThread
deriving DecidableEq, Repr

/-- Initial configuration: `NetSpeed::default()` is `(0, 0)`, the mutex is
free, the writer will publish the cycles `cs`, and `n` readers each run one
`sample` read section. -/
def initSys (cs : List (Nat × Nat)) (n : Nat) : NetSys :=
  { cell := { rx := 0, tx := 0, owner := none },
    wrem := writerProg cs,
    readers := List.replicate n { rem := readerProg, obs := [] } }

/-- One interleaving step: some runnable thread executes its next
operation. -/
inductive SysStep : NetSys → NetSys → Prop where
  | writer (s : NetSys) (op : LockOp) (rest : List LockOp) (c' : Cell)
      (v : Option Nat)
      (hrem : s.wrem = op :: rest)
      (hop : execOp 0 s.cell op = some (c', v)) :
      SysStep s { cell := c', wrem := rest, readers := s.readers }
  | reader (s : NetSys) (i : Nat) (t : RThread) (op : LockOp)
      (rest : List LockOp) (c' : Cell) (v : Option Nat)
      (hget : s.readers[i]? = some t)
      (hrem : t.rem = op :: rest)
      (hop : execOp (i + 1) s.cell op = some (c', v)) :
      SysStep s { cell := c', wrem := s.wrem,
                  readers := s.readers.set i
                    { rem := rest, obs := t.obs ++ v.toList } }

/-- All configurations reachable by interleaving the writer's cycles `cs`
with `n` concurrent readers. -/
def NetReachable (cs : List (Nat × Nat)) (n : Nat) (s : NetSys) : Prop :=
  Relation.ReflTransGen SysStep (initSys cs n) s

/-- A pair is consistent when it is the initial `(0, 0)` or the pair
published by one complete writer cycle. -/
def pairGood (cs : List (Nat × Nat)) (p : Nat × Nat) : Prop :=
  p = (0, 0) ∨ p ∈ cs

/-- The writer's phase invariant: where the writer stands in `writerProg cs`
and what that pins down about the cell. The four disjuncts are: between
critical sections; locked before the first field write; locked after
`net_rx := a`; locked after both field writes. -/
def WInv (cs : List (Nat × Nat)) (rem : List LockOp) (c : Cell) : Prop :=
  (∃ rcs, rcs <:+ cs ∧ rem = writerProg rcs ∧ c.owner ≠ some 0) ∨
  (∃ a b rcs, (a, b) :: rcs <:+ cs ∧
    rem = LockOp.setRx a :: LockOp.setTx b :: LockOp.unlock ::
      writerProg rcs ∧
    c.owner = some 0) ∨
  (∃ a b rcs, (a, b) :: rcs <:+ cs ∧
    rem = LockOp.setTx b :: LockOp.unlock :: writerProg rcs ∧
    c.owner = some 0 ∧ c.rx = a) ∨
  (∃ a b rcs, (a, b) :: rcs <:+ cs ∧
    rem = LockOp.unlock :: writerProg rcs ∧
    c.owner = some 0 ∧ c.rx = a ∧ c.tx = b)

/-- A reader's phase invariant (`id` is its thread id `i + 1`). The five
disjuncts are: not yet locked; locked; after reading `net_rx`; after
reading `net_tx`; finished. -/
def RInv (cs : List (Nat × Nat)) (id : Nat) (rem : List LockOp)
    (obs : List Nat) (c : Cell) : Prop :=
  (rem = readerProg ∧ obs = [] ∧ c.owner ≠ some id) ∨
  (rem = [LockOp.readRx, LockOp.readTx, LockOp.unlock] ∧ obs = [] ∧
    c.owner = some id) ∨
  (rem = [LockOp.readTx, LockOp.unlock] ∧ obs = [c.rx] ∧
    c.owner = some id) ∨
  (∃ a b, rem = [LockOp.unlock] ∧ obs = [a, b] ∧ c.owner = some id ∧
    pairGood cs (a, b)) ∨
  (∃ a b, rem = [] ∧ obs = [a, b] ∧ c.owner ≠ some id ∧
    pairGood cs (a, b))

/-- The global invariant of the interleaving system. -/
structure NetInv (cs : List (Nat × Nat)) (n : Nat) (s : NetSys) : Prop where
  winv : WInv cs s.wrem s.cell
  rlen : s.readers.length = n
  rinv : ∀ i t, s.readers[i]? = some t → RInv cs (i + 1) t.rem t.obs s.cell
  freeGood : s.cell.owner ≠ some 0 → pairGood cs (s.cell.rx, s.cell.tx)

/-! ## Concrete inputs used by witnesses and counterexamples -/

/-- A concrete Email channel config. -/
def cfg0 : EmailConfig :=
  { enabled := true, server := "smtp.example.org",
    username := "alice@example.org", password := "pw",
    to_addr := "ops@example.org", subject := "ServerStatus",
    title := "Alert", online_tpl := "node up", offline_tpl := "node down",
    custom_tpl := "custom" }

/-- A concrete WeChat channel config. -/
def wcfg0 : WeChatConfig :=
  { enabled := true, corp_id := "corp", corp_secret := "secret",
    agent_id := "1000002", custom_tpl := "custom" }

/-- The config `cfg0` with a `to` field that the mailbox parser rejects. -/
def badCfg : EmailConfig := { cfg0 with to_addr := "not an address" }

/-- A mailbox parse predicate that rejects exactly the string
`"not an address"`: it stands for lettre's parser on the inputs that occur
together with `badCfg`. -/
def parseBad : String → Bool := fun s => s != "not an address"

/-- OS facts reporting a memory total of 1,000,000 KB and nothing else. -/
def os4 : OsFacts :=
  { uptime := 0, total_memory := 1000000, used_memory := 0,
    total_swap := 0, free_swap := 0, disks := [], ifaces := [] }

/-- The all-zero incoming `StatRequest`. -/
def stat0 : StatRequest :=
  { version := "", vnstat := false, uptime := 0, memory_total := 0,
    memory_used := 0, swap_total := 0, swap_used := 0, hdd_total := 0,
    hdd_used := 0, network_in := 0, network_out := 0, last_network_in := 0,
    last_network_out := 0, network_rx := 0, network_tx := 0 }

/-! # Theorems -/

/-- C1 counterexample: with a failing `render_template`, `Email::notify`
does not return `Ok`: for `NodeUp` the outer `.unwrap()` panics, and for
`Custom` the render `Err` is returned to the caller. -/
theorem C1_counterexample :
    Email.notify (fun _ => true) true cfg0 Event.NodeUp
        (Except.error "missing template") = (CallRes.panicked, []) ∧
    Email.notify (fun _ => true) true cfg0 Event.Custom
        (Except.error "missing template") =
      (CallRes.err "missing template", []) ∧
    (CallRes.panicked : CallRes Unit) ≠ CallRes.ok () := by
  refine ⟨rfl, rfl, by decide⟩

/-- C1 (amended): when `render_template` fails, no transport call is made
by either channel, and `WeChat::notify` swallows the error and returns
`Ok(())`; but `Email::notify` panics (via `.unwrap()`) for
`NodeUp`/`NodeDown` and returns the render error to its caller for
`Custom`, rather than returning `Ok`. -/
theorem C1_amended (parse : String → Bool) (t : Bool) (cfg : EmailConfig)
    (wcfg : WeChatConfig) (msg stat_name : String) :
    Email.notify parse t cfg Event.NodeUp (Except.error msg) =
      (CallRes.panicked, []) ∧
    Email.notify parse t cfg Event.NodeDown (Except.error msg) =
      (CallRes.panicked, []) ∧
    Email.notify parse t cfg Event.Custom (Except.error msg) =
      (CallRes.err msg, []) ∧
    WeChat.notify t wcfg Event.Custom stat_name (Except.error msg) =
      (CallRes.ok (), []) :=
  ⟨rfl, rfl, rfl, rfl⟩

/-- C2: for every host stat (hence every parse predicate, transport
outcome, config and stat name), a Custom event whose template renders to
the empty string produces zero transport calls and a successful return, on
both channels. -/
theorem C2_empty_custom_render_suppresses_send (parse : String → Bool)
    (t : Bool) (cfg : EmailConfig) (wcfg : WeChatConfig)
    (stat_name : String) :
    Email.notify parse t cfg Event.Custom (Except.ok "") =
      (CallRes.ok (), []) ∧
    WeChat.notify t wcfg Event.Custom stat_name (Except.ok "") =
      (CallRes.ok (), []) :=
  ⟨rfl, rfl⟩

/-- C3: the value returned by `send_msg` (and hence `notify`) does not
depend on the transport outcome inside the spawned task: `Email::send_msg`
returns the same result for any two transport outcomes and returns `Ok(())`
whenever it scheduled a background task; `WeChat::send_msg` likewise and
always returns `Ok(())`; and `WeChat::notify` returns `Ok(())` on every
input. -/
theorem C3_transport_outcome_never_surfaces (parse : String → Bool)
    (t1 t2 : Bool) (cfg : EmailConfig) (wcfg : WeChatConfig)
    (html txt stat_name : String) (e : Event) (render : RenderRes) :
    Email.send_msg parse t1 cfg html = Email.send_msg parse t2 cfg html ∧
    ((Email.send_msg parse t1 cfg html).2 ≠ [] →
      (Email.send_msg parse t1 cfg html).1 = CallRes.ok ()) ∧
    WeChat.send_msg t1 wcfg txt = WeChat.send_msg t2 wcfg txt ∧
    (WeChat.send_msg t1 wcfg txt).1 = CallRes.ok () ∧
    (WeChat.notify t1 wcfg e stat_name render).1 = CallRes.ok () := by
  refine ⟨rfl, ?_, rfl, rfl, ?_⟩
  · intro hne
    unfold Email.send_msg at *
    by_cases h1 : parse ("ServerStatus <" ++ cfg.username ++ ">") <;>
      by_cases h2 : parse cfg.to_addr <;> simp [h1, h2] at hne ⊢
  · cases e with
    | NodeUp => rfl
    | NodeDown => rfl
    | Custom =>
      cases render with
      | error msg => rfl
      | ok content => rfl

/-- C3 witness: on a concrete input where a task was scheduled, `send_msg`
returned `Ok(())`. -/
theorem C3_transport_outcome_never_surfaces_witness :
    (Email.send_msg (fun _ => true) true cfg0 "hi").2 ≠ [] ∧
    (Email.send_msg (fun _ => true) true cfg0 "hi").1 = CallRes.ok () :=
  ⟨by decide,
    (C3_transport_outcome_never_surfaces (fun _ => true) true false cfg0
        wcfg0 "hi" "t" "n" Event.Custom (Except.ok "x")).2.1 (by decide)⟩

/-- C8 counterexample: with a `to` field the mailbox parser rejects,
`Email::new` still constructs the channel (it performs no validation, only
the three template registrations), and the malformed address first
manifests during a later delivery: `notify_test` panics inside `send_msg`
at `config.to.parse().unwrap()`. -/
theorem C8_counterexample :
    Email.new badCfg =
      (badCfg, [(Event.NodeUp, badCfg.online_tpl),
                (Event.NodeDown, badCfg.offline_tpl),
                (Event.Custom, badCfg.custom_tpl)]) ∧
    Email.notify_test parseBad true badCfg = (CallRes.panicked, []) := by
  refine ⟨rfl, by decide⟩

/-- C8 (amended): `Email::new` never fails and performs no validation of
the config's addresses — for every config it returns the channel and the
three template registrations; a `to` address the parser rejects is first
detected inside `send_msg` during a delivery (`notify`/`notify_test`),
where the `.unwrap()` panics. Only `WeChat::new` makes a (template
registration) failure fatal at construction. -/
theorem C8_amended (cfg : EmailConfig) (parse : String → Bool) (t : Bool)
    (html : String) (wcfg : WeChatConfig)
    (hfrom : parse ("ServerStatus <" ++ cfg.username ++ ">") = true)
    (hto : parse cfg.to_addr = false) :
    Email.new cfg =
      (cfg, [(Event.NodeUp, cfg.online_tpl),
             (Event.NodeDown, cfg.offline_tpl),
             (Event.Custom, cfg.custom_tpl)]) ∧
    Email.send_msg parse t cfg html = (CallRes.panicked, []) ∧
    Email.notify_test parse t cfg = (CallRes.panicked, []) ∧
    WeChat.new false wcfg = CallRes.panicked ∧
    WeChat.new true wcfg = CallRes.ok wcfg := by
  refine ⟨rfl, ?_, ?_, rfl, rfl⟩
  · unfold Email.send_msg
    simp [hfrom, hto]
  · unfold Email.notify_test Email.send_msg
    simp [hfrom, hto]

/-- C8 witness: the amended statement at the concrete rejected address. -/
theorem C8_amended_witness :
    Email.send_msg parseBad true badCfg "x" = (CallRes.panicked, []) :=
  (C8_amended badCfg parseBad true "x" wcfg0 (by decide) (by decide)).2.1

/-- Folding the interface loop from an arbitrary accumulator shifts the
aggregate by the accumulator. -/
theorem aggregateNet_shift (l : List Iface) (acc : Nat × Nat) :
    l.foldl
      (fun acc i =>
        if iface_ignored i.name then acc else (acc.1 + i.rx, acc.2 + i.tx))
      acc =
      (acc.1 + (aggregateNet l).1, acc.2 + (aggregateNet l).2) := by
  induction l generalizing acc with
  | nil => simp [aggregateNet]
  | cons x xs ih =>
    simp only [aggregateNet, List.foldl_cons]
    rw [ih, ih (if iface_ignored x.name then (0, 0) else (0 + x.rx, 0 + x.tx))]
    by_cases h : iface_ignored x.name <;> simp [h, Prod.ext_iff] <;> omega

/-- Unfolding `aggregateNet` one interface at a time. -/
theorem aggregateNet_cons (x : Iface) (l : List Iface) :
    aggregateNet (x :: l) =
      if iface_ignored x.name then aggregateNet l
      else (x.rx + (aggregateNet l).1, x.tx + (aggregateNet l).2) := by
  show List.foldl _ _ (x :: l) = _
  rw [List.foldl_cons, aggregateNet_shift]
  by_cases h : iface_ignored x.name <;> simp [h, Prod.ext_iff] <;> omega

/-- The aggregate distributes over append. -/
theorem aggregateNet_append (l₁ l₂ : List Iface) :
    aggregateNet (l₁ ++ l₂) =
      ((aggregateNet l₁).1 + (aggregateNet l₂).1,
       (aggregateNet l₁).2 + (aggregateNet l₂).2) := by
  show List.foldl _ _ (l₁ ++ l₂) = _
  rw [List.foldl_append, aggregateNet_shift]
  rfl

/-- Folding the disk loop from an arbitrary accumulator shifts the totals
by the accumulator. -/
theorem diskTotals_shift (l : List Disk) (acc : Nat × Nat) :
    l.foldl
      (fun acc d =>
        if fsAccepted d.file_system then
          (acc.1 + d.total_space, acc.2 + d.available_space)
        else acc)
      acc =
      (acc.1 + (diskTotals l).1, acc.2 + (diskTotals l).2) := by
  induction l generalizing acc with
  | nil => simp [diskTotals]
  | cons x xs ih =>
    simp only [diskTotals, List.foldl_cons]
    rw [ih,
      ih (if fsAccepted x.file_system then
            (0 + x.total_space, 0 + x.available_space) else (0, 0))]
    by_cases h : fsAccepted x.file_system <;> simp [h, Prod.ext_iff] <;> omega

/-- Unfolding `diskTotals` one disk at a time. -/
theorem diskTotals_cons (x : Disk) (l : List Disk) :
    diskTotals (x :: l) =
      if fsAccepted x.file_system then
        (x.total_space + (diskTotals l).1,
         x.available_space + (diskTotals l).2)
      else diskTotals l := by
  show List.foldl _ _ (x :: l) = _
  rw [List.foldl_cons, diskTotals_shift]
  by_cases h : fsAccepted x.file_system <;> simp [h, Prod.ext_iff] <;> omega

/-- The disk totals distribute over append. -/
theorem diskTotals_append (l₁ l₂ : List Disk) :
    diskTotals (l₁ ++ l₂) =
      ((diskTotals l₁).1 + (diskTotals l₂).1,
       (diskTotals l₁).2 + (diskTotals l₂).2) := by
  show List.foldl _ _ (l₁ ++ l₂) = _
  rw [List.foldl_append, diskTotals_shift]
  rfl

/-- When every included disk — every disk the allow-list accepts — reports
no more available than total space, the summed available space is bounded
by the summed total space. Excluded disks never enter the sums, so nothing
is assumed about them. -/
theorem diskTotals_avail_le_total (l : List Disk)
    (h : ∀ d ∈ l, fsAccepted d.file_system = true →
      d.available_space ≤ d.total_space) :
    (diskTotals l).2 ≤ (diskTotals l).1 := by
  induction l with
  | nil => simp [diskTotals]
  | cons x xs ih =>
    rw [diskTotals_cons]
    have hxs := ih (fun d hd => h d (List.mem_cons_of_mem x hd))
    by_cases hfs : fsAccepted x.file_system
    · have hx := h x (List.mem_cons_self x xs) hfs
      simp [hfs]
      omega
    · simp [hfs]
      omega

/-- The checked subtraction succeeds exactly on non-underflowing inputs. -/
theorem checkedSub_of_le {a b : Nat} (h : b ≤ a) :
    checkedSub a b = some (a - b) := by
  unfold checkedSub
  simp [h]

/-- Inverting a successful `checkedSub`. -/
theorem checkedSub_eq_some {a b c : Nat} (h : checkedSub a b = some c) :
    c = a - b ∧ b ≤ a := by
  unfold checkedSub at h
  split at h <;> simp_all

/-- The conversion `memConv` is monotone, so KB→KiB conversion preserves the
`free ≤ total` orderings the OS reports. -/
theorem memConv_mono {a b : Nat} (h : a ≤ b) : memConv a ≤ memConv b :=
  Nat.div_le_div_right (Nat.mul_le_mul_right 1000 h)

/-- Inversion of a successful `sample`: every output field, in terms of the
inputs. Used to settle the numerical and filtering claims. -/
theorem sample_some_inv (pkg : String) (v : Bool) (os : OsFacts)
    (vn : Nat × Nat × Nat × Nat) (ns : Nat × Nat) (stat : StatRequest)
    (st : StatRequest) (h : sample pkg v os vn ns stat = some st) :
    st.version = pkg ∧ st.vnstat = v ∧ st.uptime = os.uptime ∧
    st.memory_total = memConv os.total_memory ∧
    st.memory_used = memConv os.used_memory ∧
    st.swap_total = memConv os.total_swap ∧
    st.swap_used = memConv os.total_swap - memConv os.free_swap ∧
    st.hdd_total = (diskTotals os.disks).1 / 1024 / 1024 ∧
    st.hdd_used =
      ((diskTotals os.disks).1 - (diskTotals os.disks).2) / 1024 / 1024 ∧
    (v = true →
      st.network_in = vn.1 ∧ st.network_out = vn.2.1 ∧
      st.last_network_in = vn.1 - vn.2.2.1 ∧
      st.last_network_out = vn.2.1 - vn.2.2.2) ∧
    (v = false →
      st.network_in = (aggregateNet os.ifaces).1 ∧
      st.network_out = (aggregateNet os.ifaces).2 ∧
      st.last_network_in = stat.last_network_in ∧
      st.last_network_out = stat.last_network_out) ∧
    st.network_rx = ns.1 ∧ st.network_tx = ns.2 := by
  simp only [sample] at h
  split at h
  · exact absurd h (by simp)
  next sw hsw =>
    split at h
    · exact absurd h (by simp)
    next hu hhdd =>
      obtain ⟨hsw1, hsw2⟩ := checkedSub_eq_some hsw
      obtain ⟨hh1, hh2⟩ := checkedSub_eq_some hhdd
      split at h
      next hv =>
        split at h
        next lin lout hlin hlout =>
          obtain ⟨hl1, _⟩ := checkedSub_eq_some hlin
          obtain ⟨hl2, _⟩ := checkedSub_eq_some hlout
          rw [Option.some_inj] at h
          subst h
          refine ⟨rfl, by simp [hv], rfl, rfl, rfl, rfl, hsw1 ▸ rfl, rfl,
            hh1 ▸ rfl, ?_, ?_, rfl, rfl⟩
          · intro _
            exact ⟨rfl, rfl, hl1 ▸ rfl, hl2 ▸ rfl⟩
          · intro hfalse
            exact absurd (hv ▸ hfalse) (by simp)
        next hne =>
          exact absurd h (by simp)
      next hv =>
        rw [Option.some_inj] at h
        subst h
        have hvf : v = false := by
          cases v
          · rfl
          · exact absurd rfl hv
        refine ⟨rfl, by simp [hvf], rfl, rfl, rfl, rfl, hsw1 ▸ rfl, rfl,
          hh1 ▸ rfl, ?_, ?_, rfl, rfl⟩
        · intro htrue
          exact absurd (hvf ▸ htrue) (by simp)
        · intro _
          exact ⟨rfl, rfl, rfl, rfl⟩

/-- C4 counterexample: an OS-reported memory total of 1,000,000 KB yields a
Snapshot memory field of 976,562 KiB — not 976 KiB as claimed
(1,000,000 × 1000 / 1024 = 976,562). -/
theorem C4_counterexample :
    (sample "" false os4 (0, 0, 0, 0) (0, 0) stat0).map
        StatRequest.memory_total = some 976562 ∧
    (976562 : Nat) ≠ 976 := by
  refine ⟨rfl, by decide⟩

/-- C4 (amended): the memory and swap totals are converted from OS
base-1000 KB to base-1024 KiB by the exact integer factor
`x * 1000 / 1024`; an OS-reported total of 1,000,000 KB yields 976,562 KiB
(it is 1,000 KB that yields 976 KiB). -/
theorem C4_amended (pkg : String) (v : Bool) (os : OsFacts)
    (vn : Nat × Nat × Nat × Nat) (ns : Nat × Nat) (stat st : StatRequest)
    (h : sample pkg v os vn ns stat = some st) :
    st.memory_total = os.total_memory * 1000 / 1024 ∧
    st.memory_used = os.used_memory * 1000 / 1024 ∧
    st.swap_total = os.total_swap * 1000 / 1024 ∧
    memConv 1000000 = 976562 ∧ memConv 1000 = 976 := by
  obtain ⟨-, -, -, h4, h5, h6, -⟩ := sample_some_inv pkg v os vn ns stat st h
  exact ⟨h4, h5, h6, by decide, by decide⟩

/-- C4 witness: the amended statement at a concrete successful sample. -/
theorem C4_amended_witness :
    (976562 : Nat) = 1000000 * 1000 / 1024 ∧ memConv 1000000 = 976562 := by
  have h := C4_amended "" false os4 (0, 0, 0, 0) (0, 0) stat0
    { version := "", vnstat := false, uptime := 0,
      memory_total := 976562, memory_used := 0, swap_total := 0,
      swap_used := 0, hdd_total := 0, hdd_used := 0,
      network_in := 0, network_out := 0, last_network_in := 0,
      last_network_out := 0, network_rx := 0, network_tx := 0 } rfl
  exact ⟨h.1, h.2.2.2.1⟩

/-- C5: in the aggregation shared by the `sample` rescan and the net-speed
loop, an interface whose name matches the ignore list contributes zero
bytes and any other interface contributes its full counters; "docker0" and
"veth1234" are ignored and "eth0" is not; `netSpeedCycle` publishes exactly
this aggregate, and a (non-vnstat) `sample` stores it in
`network_in`/`network_out`. -/
theorem C5_iface_ignore_filtering :
    (∀ pre post x, iface_ignored x.name = true →
      aggregateNet (pre ++ x :: post) = aggregateNet (pre ++ post)) ∧
    (∀ pre post x, iface_ignored x.name = false →
      aggregateNet (pre ++ x :: post) =
        ((aggregateNet (pre ++ post)).1 + x.rx,
         (aggregateNet (pre ++ post)).2 + x.tx)) ∧
    iface_ignored "docker0" = true ∧
    iface_ignored "veth1234" = true ∧
    iface_ignored "eth0" = false ∧
    (∀ ifaces, netSpeedCycle ifaces = aggregateNet ifaces) ∧
    (∀ pkg os vn ns stat st, sample pkg false os vn ns stat = some st →
      st.network_in = (aggregateNet os.ifaces).1 ∧
      st.network_out = (aggregateNet os.ifaces).2) := by
  refine ⟨?_, ?_, by decide, by decide, by decide, fun _ => rfl, ?_⟩
  · intro pre post x h
    rw [aggregateNet_append, aggregateNet_append, aggregateNet_cons,
      if_pos h]
  · intro pre post x h
    rw [aggregateNet_append, aggregateNet_append, aggregateNet_cons,
      if_neg (by simp [h])]
    simp [Prod.ext_iff]
    omega
  · intro pkg os vn ns stat st h
    obtain ⟨-, -, -, -, -, -, -, -, -, -, h11, -, -⟩ :=
      sample_some_inv pkg false os vn ns stat st h
    obtain ⟨h1, h2, -, -⟩ := h11 rfl
    exact ⟨h1, h2⟩

/-- C5 witness: a "docker0" interface contributes nothing on a concrete
interface list. -/
theorem C5_iface_ignore_filtering_witness :
    aggregateNet
        ([⟨"eth0", 5, 7⟩] ++ ⟨"docker0", 100, 200⟩ :: [⟨"eth1", 11, 13⟩]) =
      aggregateNet ([⟨"eth0", 5, 7⟩] ++ [⟨"eth1", 11, 13⟩]) :=
  C5_iface_ignore_filtering.1 [⟨"eth0", 5, 7⟩] [⟨"eth1", 11, 13⟩]
    ⟨"docker0", 100, 200⟩ (by decide)

/-- C6: disk totals sum exactly the disks whose lowercased filesystem name
matches the allow-list: a non-matching disk contributes nothing, a matching
one contributes its full total and available space; "tmpfs" is excluded and
"ext4" included; `sample` stores the byte totals divided twice by 1024. -/
theorem C6_fs_allowlist_filtering :
    (∀ pre post d, fsAccepted d.file_system = false →
      diskTotals (pre ++ d :: post) = diskTotals (pre ++ post)) ∧
    (∀ pre post d, fsAccepted d.file_system = true →
      diskTotals (pre ++ d :: post) =
        ((diskTotals (pre ++ post)).1 + d.total_space,
         (diskTotals (pre ++ post)).2 + d.available_space)) ∧
    fsAccepted "tmpfs" = false ∧
    fsAccepted "ext4" = true ∧
    (∀ pkg v os vn ns stat st, sample pkg v os vn ns stat = some st →
      st.hdd_total = (diskTotals os.disks).1 / 1024 / 1024 ∧
      st.hdd_used =
        ((diskTotals os.disks).1 - (diskTotals os.disks).2) /
          1024 / 1024) := by
  refine ⟨?_, ?_, by decide, by decide, ?_⟩
  · intro pre post d h
    rw [diskTotals_append, diskTotals_append, diskTotals_cons,
      if_neg (by simp [h])]
  · intro pre post d h
    rw [diskTotals_append, diskTotals_append, diskTotals_cons, if_pos h]
    simp [Prod.ext_iff]
    omega
  · intro pkg v os vn ns stat st h
    obtain ⟨-, -, -, -, -, -, -, h8, h9, -⟩ :=
      sample_some_inv pkg v os vn ns stat st h
    exact ⟨h8, h9⟩

/-- C6 witness: a "tmpfs" disk contributes nothing on a concrete disk
list. -/
theorem C6_fs_allowlist_filtering_witness :
    diskTotals
        ([⟨"ext4", 4096, 1024⟩] ++ ⟨"tmpfs", 999, 998⟩ :: []) =
      diskTotals ([⟨"ext4", 4096, 1024⟩] ++ []) :=
  C6_fs_allowlist_filtering.1 [⟨"ext4", 4096, 1024⟩] []
    ⟨"tmpfs", 999, 998⟩ (by decide)

/-- C7: `sample` draws the cumulative network totals from exactly one
source. With the vnstat flag set the result is independent of the
interface list and takes the four collaborator counters (totals plus the
deltas in `last_network_in`/`last_network_out`); without it the result is
independent of the collaborator counters, takes the live rescan aggregate,
and leaves the delta fields untouched. -/
theorem C7_vnstat_source_exclusive :
    (∀ pkg os vn ns stat l,
      sample pkg true { os with ifaces := l } vn ns stat =
        sample pkg true os vn ns stat) ∧
    (∀ pkg os vn vn' ns stat,
      sample pkg false os vn ns stat = sample pkg false os vn' ns stat) ∧
    (∀ pkg os vn ns stat st, sample pkg true os vn ns stat = some st →
      st.vnstat = true ∧ st.network_in = vn.1 ∧ st.network_out = vn.2.1 ∧
      st.last_network_in = vn.1 - vn.2.2.1 ∧
      st.last_network_out = vn.2.1 - vn.2.2.2) ∧
    (∀ pkg os vn ns stat st, sample pkg false os vn ns stat = some st →
      st.vnstat = false ∧
      st.network_in = (aggregateNet os.ifaces).1 ∧
      st.network_out = (aggregateNet os.ifaces).2 ∧
      st.last_network_in = stat.last_network_in ∧
      st.last_network_out = stat.last_network_out) := by
  refine ⟨fun _ _ _ _ _ _ => rfl, fun _ _ _ _ _ _ => rfl, ?_, ?_⟩
  · intro pkg os vn ns stat st h
    obtain ⟨-, h2, -, -, -, -, -, -, -, h10, -, -⟩ :=
      sample_some_inv pkg true os vn ns stat st h
    obtain ⟨h1, h2', h3, h4⟩ := h10 rfl
    exact ⟨h2, h1, h2', h3, h4⟩
  · intro pkg os vn ns stat st h
    obtain ⟨-, h2, -, -, -, -, -, -, -, -, h11, -, -⟩ :=
      sample_some_inv pkg false os vn ns stat st h
    obtain ⟨h1, h2', h3, h4⟩ := h11 rfl
    exact ⟨h2, h1, h2', h3, h4⟩

/-- C7 witness: the exclusivity statement instantiated on a concrete
successful vnstat sample. -/
theorem C7_vnstat_source_exclusive_witness :
    StatRequest.network_in
        { version := "", vnstat := true, uptime := 0,
          memory_total := 976562, memory_used := 0, swap_total := 0,
          swap_used := 0, hdd_total := 0, hdd_used := 0,
          network_in := 10, network_out := 20, last_network_in := 7,
          last_network_out := 16, network_rx := 0, network_tx := 0 } = 10 ∧
    StatRequest.last_network_in
        { version := "", vnstat := true, uptime := 0,
          memory_total := 976562, memory_used := 0, swap_total := 0,
          swap_used := 0, hdd_total := 0, hdd_used := 0,
          network_in := 10, network_out := 20, last_network_in := 7,
          last_network_out := 16, network_rx := 0, network_tx := 0 } =
      10 - 3 := by
  have h := C7_vnstat_source_exclusive.2.2.1 "" os4 (10, 20, 3, 4) (0, 0)
    stat0
    { version := "", vnstat := true, uptime := 0,
      memory_total := 976562, memory_used := 0, swap_total := 0,
      swap_used := 0, hdd_total := 0, hdd_used := 0,
      network_in := 10, network_out := 20, last_network_in := 7,
      last_network_out := 16, network_rx := 0, network_tx := 0 } rfl
  exact ⟨h.2.1, h.2.2.2.1⟩

/-- C10: the unchecked u64 subtractions in `sample`
(`swap_total - swap_free`, `hdd_total - hdd_avail`, and the two vnstat
deltas) cannot underflow — so `sample` cannot panic there — provided the
OS reports free swap ≤ total swap and available ≤ total space per
*included* disk (disks the filesystem allow-list accepts; excluded disks
never enter the subtraction), and the traffic collaborator reports
prior-period ≤ cumulative totals. -/
theorem C10_no_underflow (pkg : String) (v : Bool) (os : OsFacts)
    (vn : Nat × Nat × Nat × Nat) (ns : Nat × Nat) (stat : StatRequest)
    (hswap : os.free_swap ≤ os.total_swap)
    (hdisk : ∀ d ∈ os.disks, fsAccepted d.file_system = true →
      d.available_space ≤ d.total_space)
    (hvin : vn.2.2.1 ≤ vn.1) (hvout : vn.2.2.2 ≤ vn.2.1) :
    (sample pkg v os vn ns stat).isSome := by
  simp only [sample]
  rw [checkedSub_of_le (memConv_mono hswap),
    checkedSub_of_le (diskTotals_avail_le_total os.disks hdisk)]
  cases v
  · simp
  · rw [checkedSub_of_le hvin, checkedSub_of_le hvout]
    simp

/-- C10 witness: a concrete sample satisfying the preconditions succeeds,
on a disk list that even contains an excluded "tmpfs" disk reporting more
available than total space — the per-included-disk precondition says
nothing about it, and `sample` never subtracts it. -/
theorem C10_no_underflow_witness :
    (sample "" true
      { uptime := 0, total_memory := 1000000, used_memory := 0,
        total_swap := 0, free_swap := 0,
        disks := [{ file_system := "tmpfs", total_space := 0,
                    available_space := 5 },
                  { file_system := "ext4", total_space := 4096,
                    available_space := 1024 }],
        ifaces := [] }
      (10, 20, 3, 4) (0, 0) stat0).isSome :=
  C10_no_underflow "" true
    { uptime := 0, total_memory := 1000000, used_memory := 0,
      total_swap := 0, free_swap := 0,
      disks := [{ file_system := "tmpfs", total_space := 0,
                  available_space := 5 },
                { file_system := "ext4", total_space := 4096,
                  available_space := 1024 }],
      ifaces := [] }
    (10, 20, 3, 4) (0, 0) stat0 (by decide)
    (by
      intro d hd hacc
      rcases List.mem_cons.mp hd with h | h
      · subst h
        exact absurd hacc (by decide)
      · rcases List.mem_cons.mp h with h2 | h2
        · subst h2
          decide
        · exact absurd h2 (List.not_mem_nil d))
    (by decide) (by decide)

/-- A reader's phase invariant transfers across any cell change made while
that reader does not hold the lock (before and after): the only phases
possible then do not mention the cell's fields. -/
theorem RInv_other {cs : List (Nat × Nat)} {id : Nat} {rem : List LockOp}
    {obs : List Nat} {c c' : Cell}
    (h : RInv cs id rem obs c)
    (hold : c.owner ≠ some id) (hnew : c'.owner ≠ some id) :
    RInv cs id rem obs c' := by
  rcases h with ⟨h1, h2, h3⟩ | ⟨h1, h2, h3⟩ | ⟨h1, h2, h3⟩ |
    ⟨a, b, h1, h2, h3, h4⟩ | ⟨a, b, h1, h2, h3, h4⟩
  · exact Or.inl ⟨h1, h2, hnew⟩
  · exact absurd h3 hold
  · exact absurd h3 hold
  · exact absurd h3 hold
  · exact Or.inr (Or.inr (Or.inr (Or.inr ⟨a, b, h1, h2, hnew, h4⟩)))

/-- The writer's phase invariant transfers across any cell change made
while the writer does not hold the lock (before and after). -/
theorem WInv_other {cs : List (Nat × Nat)} {rem : List LockOp} {c c' : Cell}
    (h : WInv cs rem c) (hold : c.owner ≠ some 0)
    (hnew : c'.owner ≠ some 0) :
    WInv cs rem c' := by
  rcases h with ⟨rcs, h1, h2, h3⟩ | ⟨a, b, rcs, h1, h2, h3⟩ |
    ⟨a, b, rcs, h1, h2, h3, h4⟩ | ⟨a, b, rcs, h1, h2, h3, h4, h5⟩
  · exact Or.inl ⟨rcs, h1, h2, hnew⟩
  · exact absurd h3 hold
  · exact absurd h3 hold
  · exact absurd h3 hold

/-- The invariant holds initially. -/
theorem netInv_init (cs : List (Nat × Nat)) (n : Nat) :
    NetInv cs n (initSys cs n) := by
  refine ⟨Or.inl ⟨cs, List.suffix_rfl, rfl, by simp [initSys]⟩,
    by simp [initSys], ?_, ?_⟩
  · intro i t hget
    simp only [initSys, List.getElem?_replicate] at hget
    split at hget
    · rw [Option.some_inj] at hget
      subst hget
      exact Or.inl ⟨rfl, rfl, by simp [initSys]⟩
    · exact absurd hget (by simp)
  · intro _
    exact Or.inl rfl

/-- The invariant is preserved by every interleaving step. -/
theorem netInv_step {cs : List (Nat × Nat)} {n : Nat} {s s' : NetSys}
    (inv : NetInv cs n s) (hst : SysStep s s') : NetInv cs n s' := by
  obtain ⟨winv, rlen, rinv, freeGood⟩ := inv
  cases hst with
  | writer op rest c' v hrem hop =>
    rcases winv with ⟨rcs, hsuf, heq, how⟩ | ⟨a, b, rcs, hsuf, heq, how⟩ |
      ⟨a, b, rcs, hsuf, heq, how, hrx⟩ |
      ⟨a, b, rcs, hsuf, heq, how, hrx, htx⟩
    · -- writer was idle: the next op can only be the `lock` of a new cycle
      rw [hrem] at heq
      cases rcs with
      | nil => simp [writerProg] at heq
      | cons p rcs' =>
        obtain ⟨a, b⟩ := p
        simp only [writerProg, List.cons.injEq] at heq
        obtain ⟨hopq, hrest⟩ := heq
        subst hopq
        subst hrest
        simp only [execOp] at hop
        split at hop
        next hnone =>
          injection hop with hcv
          injection hcv with hc hv
          subst hc
          subst hv
          refine ⟨Or.inr (Or.inl ⟨a, b, rcs', hsuf, rfl, rfl⟩),
            rlen, ?_, ?_⟩
          · intro j u hgetj
            exact RInv_other (rinv j u hgetj) (by rw [hnone]; simp)
              (by simp)
          · intro hne
            exact absurd rfl hne
        next => exact absurd hop (by simp)
    · -- writer locked: the next op is `setRx a`
      rw [hrem] at heq
      simp only [List.cons.injEq] at heq
      obtain ⟨hopq, hrest⟩ := heq
      subst hopq
      subst hrest
      simp only [execOp] at hop
      rw [if_pos how] at hop
      injection hop with hcv
      injection hcv with hc hv
      subst hc
      subst hv
      refine ⟨Or.inr (Or.inr (Or.inl ⟨a, b, rcs, hsuf, rfl, how, rfl⟩)),
        rlen, ?_, ?_⟩
      · intro j u hgetj
        exact RInv_other (rinv j u hgetj) (by rw [how]; simp)
          (by rw [show ({ s.cell with rx := a } : Cell).owner =
              s.cell.owner from rfl, how]; simp)
      · intro hne
        exact absurd how hne
    · -- writer wrote rx: the next op is `setTx b`
      rw [hrem] at heq
      simp only [List.cons.injEq] at heq
      obtain ⟨hopq, hrest⟩ := heq
      subst hopq
      subst hrest
      simp only [execOp] at hop
      rw [if_pos how] at hop
      injection hop with hcv
      injection hcv with hc hv
      subst hc
      subst hv
      refine ⟨Or.inr (Or.inr (Or.inr ⟨a, b, rcs, hsuf, rfl, how, hrx,
        rfl⟩)), rlen, ?_, ?_⟩
      · intro j u hgetj
        exact RInv_other (rinv j u hgetj) (by rw [how]; simp)
          (by rw [show ({ s.cell with tx := b } : Cell).owner =
              s.cell.owner from rfl, how]; simp)
      · intro hne
        exact absurd how hne
    · -- writer wrote both fields: the next op is the `unlock` publishing
      -- the cycle pair
      rw [hrem] at heq
      simp only [List.cons.injEq] at heq
      obtain ⟨hopq, hrest⟩ := heq
      subst hopq
      subst hrest
      simp only [execOp] at hop
      rw [if_pos how] at hop
      injection hop with hcv
      injection hcv with hc hv
      subst hc
      subst hv
      refine ⟨Or.inl ⟨rcs, (List.suffix_cons (a, b) rcs).trans hsuf,
        rfl, by simp⟩, rlen, ?_, ?_⟩
      · intro j u hgetj
        exact RInv_other (rinv j u hgetj) (by rw [how]; simp) (by simp)
      · intro _
        show pairGood cs (s.cell.rx, s.cell.tx)
        rw [hrx, htx]
        exact Or.inr (hsuf.mem (List.mem_cons_self _ _))
  | reader i t op rest c' v hget hrem hop =>
    obtain ⟨hlt, -⟩ := List.getElem?_eq_some.mp hget
    rcases rinv i t hget with ⟨heq, hobs, how⟩ | ⟨heq, hobs, how⟩ |
      ⟨heq, hobs, how⟩ | ⟨a, b, heq, hobs, how, hab⟩ |
      ⟨a, b, heq, hobs, how, hab⟩
    · -- reader at start: the next op is its `lock`
      rw [hrem] at heq
      simp only [readerProg, List.cons.injEq] at heq
      obtain ⟨hopq, hrest⟩ := heq
      subst hopq
      subst hrest
      simp only [execOp] at hop
      split at hop
      next hnone =>
        injection hop with hcv
        injection hcv with hc hv
        subst hc
        subst hv
        refine ⟨WInv_other winv (by rw [hnone]; simp) (by simp), ?_, ?_, ?_⟩
        · rw [List.length_set]
          exact rlen
        · intro j u hgetj
          by_cases hij : j = i
          · subst hij
            rw [List.getElem?_set_eq_of_lt _ hlt] at hgetj
            rw [Option.some_inj] at hgetj
            subst hgetj
            exact Or.inr (Or.inl ⟨rfl, by simp [hobs], rfl⟩)
          · rw [List.getElem?_set_ne (fun h => hij h.symm)] at hgetj
            refine RInv_other (rinv j u hgetj) (by rw [hnone]; simp) ?_
            intro hcon
            injection hcon with hcon'
            omega
        · intro _
          show pairGood cs (s.cell.rx, s.cell.tx)
          exact freeGood (by rw [hnone]; simp)
      next => exact absurd hop (by simp)
    · -- reader locked: the next op is its `readRx`
      rw [hrem] at heq
      simp only [List.cons.injEq] at heq
      obtain ⟨hopq, hrest⟩ := heq
      subst hopq
      subst hrest
      simp only [execOp] at hop
      rw [if_pos how] at hop
      injection hop with hcv
      injection hcv with hc hv
      subst hc
      subst hv
      refine ⟨winv, ?_, ?_, freeGood⟩
      · rw [List.length_set]
        exact rlen
      · intro j u hgetj
        by_cases hij : j = i
        · subst hij
          rw [List.getElem?_set_eq_of_lt _ hlt] at hgetj
          rw [Option.some_inj] at hgetj
          subst hgetj
          exact Or.inr (Or.inr (Or.inl ⟨rfl, by simp [hobs], how⟩))
        · rw [List.getElem?_set_ne (fun h => hij h.symm)] at hgetj
          exact rinv j u hgetj
    · -- reader read rx: the next op is its `readTx`
      rw [hrem] at heq
      simp only [List.cons.injEq] at heq
      obtain ⟨hopq, hrest⟩ := heq
      subst hopq
      subst hrest
      simp only [execOp] at hop
      rw [if_pos how] at hop
      injection hop with hcv
      injection hcv with hc hv
      subst hc
      subst hv
      have hpair : pairGood cs (s.cell.rx, s.cell.tx) :=
        freeGood (by rw [how]; simp)
      refine ⟨winv, ?_, ?_, freeGood⟩
      · rw [List.length_set]
        exact rlen
      · intro j u hgetj
        by_cases hij : j = i
        · subst hij
          rw [List.getElem?_set_eq_of_lt _ hlt] at hgetj
          rw [Option.some_inj] at hgetj
          subst hgetj
          exact Or.inr (Or.inr (Or.inr (Or.inl ⟨s.cell.rx, s.cell.tx,
            rfl, by simp [hobs], how, hpair⟩)))
        · rw [List.getElem?_set_ne (fun h => hij h.symm)] at hgetj
          exact rinv j u hgetj
    · -- reader read both: the next op is its `unlock`
      rw [hrem] at heq
      simp only [List.cons.injEq] at heq
      obtain ⟨hopq, hrest⟩ := heq
      subst hopq
      subst hrest
      simp only [execOp] at hop
      rw [if_pos how] at hop
      injection hop with hcv
      injection hcv with hc hv
      subst hc
      subst hv
      refine ⟨WInv_other winv (by rw [how]; simp) (by simp), ?_, ?_, ?_⟩
      · rw [List.length_set]
        exact rlen
      · intro j u hgetj
        by_cases hij : j = i
        · subst hij
          rw [List.getElem?_set_eq_of_lt _ hlt] at hgetj
          rw [Option.some_inj] at hgetj
          subst hgetj
          exact Or.inr (Or.inr (Or.inr (Or.inr ⟨a, b, rfl,
            by simp [hobs], by simp, hab⟩)))
        · rw [List.getElem?_set_ne (fun h => hij h.symm)] at hgetj
          refine RInv_other (rinv j u hgetj) ?_ (by simp)
          intro hcon
          have hcon2 := how.symm.trans hcon
          injection hcon2 with hcon'
          omega
      · intro _
        show pairGood cs (s.cell.rx, s.cell.tx)
        exact freeGood (by rw [how]; simp)
    · -- reader already finished: contradiction with a pending op
      rw [heq] at hrem
      exact absurd hrem (by simp)

/-- The invariant holds in every reachable configuration. -/
theorem netInv_reachable (cs : List (Nat × Nat)) (n : Nat) (s : NetSys)
    (h : NetReachable cs n s) : NetInv cs n s := by
  induction h with
  | refl => exact netInv_init cs n
  | tail hr hstep ih => exact netInv_step ih hstep

/-- C9: in every interleaving of the net-speed sampler (which, under the
mutex, writes `net_rx` then `net_tx` field by field) with any number of
concurrent `sample` readers (which read both fields under one lock), a
reader that completed its read section observed a pair written entirely by
one refresh cycle — the initial `(0, 0)` or one published cycle pair —
never `net_rx` from one cycle and `net_tx` from another. -/
theorem C9_no_torn_netspeed_pair (cs : List (Nat × Nat)) (n : Nat)
    (s : NetSys) (hreach : NetReachable cs n s) (i : Nat) (t : RThread)
    (hget : s.readers[i]? = some t) (hdone : t.rem = []) :
    ∃ a b, t.obs = [a, b] ∧ ((a, b) = (0, 0) ∨ (a, b) ∈ cs) := by
  have inv := netInv_reachable cs n s hreach
  rcases inv.rinv i t hget with ⟨heq, -, -⟩ | ⟨heq, -, -⟩ | ⟨heq, -, -⟩ |
    ⟨a, b, heq, -, -, -⟩ | ⟨a, b, heq, hobs, -, hab⟩
  · rw [hdone] at heq
    exact absurd heq.symm (by simp [readerProg])
  · rw [hdone] at heq
    exact absurd heq.symm (by simp)
  · rw [hdone] at heq
    exact absurd heq.symm (by simp)
  · rw [hdone] at heq
    exact absurd heq.symm (by simp)
  · exact ⟨a, b, hobs, hab⟩

/-- C9 witness: a concrete interleaving — one full writer cycle publishing
`(3, 4)`, then one complete reader section — in which the reader observed
exactly the published pair. -/
theorem C9_no_torn_netspeed_pair_witness :
    ∃ a b, ([3, 4] : List Nat) = [a, b] ∧
      ((a, b) = (0, 0) ∨ (a, b) ∈ [((3 : Nat), (4 : Nat))]) := by
  have h1 : SysStep (initSys [(3, 4)] 1)
      { cell := { rx := 0, tx := 0, owner := some 0 },
        wrem := [LockOp.setRx 3, LockOp.setTx 4, LockOp.unlock],
        readers := [{ rem := readerProg, obs := [] }] } :=
    SysStep.writer _ LockOp.lock _ _ none rfl rfl
  have h2 : SysStep
      { cell := { rx := 0, tx := 0, owner := some 0 },
        wrem := [LockOp.setRx 3, LockOp.setTx 4, LockOp.unlock],
        readers := [{ rem := readerProg, obs := [] }] }
      { cell := { rx := 3, tx := 0, owner := some 0 },
        wrem := [LockOp.setTx 4, LockOp.unlock],
        readers := [{ rem := readerProg, obs := [] }] } :=
    SysStep.writer _ (LockOp.setRx 3) _ _ none rfl rfl
  have h3 : SysStep
      { cell := { rx := 3, tx := 0, owner := some 0 },
        wrem := [LockOp.setTx 4, LockOp.unlock],
        readers := [{ rem := readerProg, obs := [] }] }
      { cell := { rx := 3, tx := 4, owner := some 0 },
        wrem := [LockOp.unlock],
        readers := [{ rem := readerProg, obs := [] }] } :=
    SysStep.writer _ (LockOp.setTx 4) _ _ none rfl rfl
  have h4 : SysStep
      { cell := { rx := 3, tx := 4, owner := some 0 },
        wrem := [LockOp.unlock],
        readers := [{ rem := readerProg, obs := [] }] }
      { cell := { rx := 3, tx := 4, owner := none },
        wrem := [],
        readers := [{ rem := readerProg, obs := [] }] } :=
    SysStep.writer _ LockOp.unlock _ _ none rfl rfl
  have h5 : SysStep
      { cell := { rx := 3, tx := 4, owner := none },
        wrem := [],
        readers := [{ rem := readerProg, obs := [] }] }
      { cell := { rx := 3, tx := 4, owner := some 1 },
        wrem := [],
        readers := [{ rem := [LockOp.readRx, LockOp.readTx, LockOp.unlock],
                      obs := [] }] } :=
    SysStep.reader _ 0 { rem := readerProg, obs := [] } LockOp.lock _ _
      none rfl rfl rfl
  have h6 : SysStep
      { cell := { rx := 3, tx := 4, owner := some 1 },
        wrem := [],
        readers := [{ rem := [LockOp.readRx, LockOp.readTx, LockOp.unlock],
                      obs := [] }] }
      { cell := { rx := 3, tx := 4, owner := some 1 },
        wrem := [],
        readers := [{ rem := [LockOp.readTx, LockOp.unlock],
                      obs := [3] }] } :=
    SysStep.reader _ 0
      { rem := [LockOp.readRx, LockOp.readTx, LockOp.unlock], obs := [] }
      LockOp.readRx _ _ (some 3) rfl rfl rfl
  have h7 : SysStep
      { cell := { rx := 3, tx := 4, owner := some 1 },
        wrem := [],
        readers := [{ rem := [LockOp.readTx, LockOp.unlock],
                      obs := [3] }] }
      { cell := { rx := 3, tx := 4, owner := some 1 },
        wrem := [],
        readers := [{ rem := [LockOp.unlock], obs := [3, 4] }] } :=
    SysStep.reader _ 0
      { rem := [LockOp.readTx, LockOp.unlock], obs := [3] }
      LockOp.readTx _ _ (some 4) rfl rfl rfl
  have h8 : SysStep
      { cell := { rx := 3, tx := 4, owner := some 1 },
        wrem := [],
        readers := [{ rem := [LockOp.unlock], obs := [3, 4] }] }
      { cell := { rx := 3, tx := 4, owner := none },
        wrem := [],
        readers := [{ rem := [], obs := [3, 4] }] } :=
    SysStep.reader _ 0 { rem := [LockOp.unlock], obs := [3, 4] }
      LockOp.unlock _ _ none rfl rfl rfl
  exact C9_no_torn_netspeed_pair [(3, 4)] 1
    { cell := { rx := 3, tx := 4, owner := none },
      wrem := [],
      readers := [{ rem := [], obs := [3, 4] }] }
    (Relation.ReflTransGen.head h1 (Relation.ReflTransGen.head h2
      (Relation.ReflTransGen.head h3 (Relation.ReflTransGen.head h4
        (Relation.ReflTransGen.head h5 (Relation.ReflTransGen.head h6
          (Relation.ReflTransGen.head h7 (Relation.ReflTransGen.head h8
            Relation.ReflTransGen.refl))))))))
    0 { rem := [], obs := [3, 4] } rfl rfl
